import Mathlib

/- Verification development for the GroupManager Telegram moderation worker.

   The repository bundles several near-duplicate Cloudflare-Worker
   implementations of the same moderation bot.  Each section below is a
   shallow embedding of one of the concrete functions, translated from the
   TypeScript source:

   * src/src/index.ts        (four worker variants concatenated)
   * src/unnamed/part_000 .. part_003   (further variants)

   State (the Cloudflare KV store) is passed explicitly; the Telegram API is
   modelled as an effect trace or as an outcome oracle; machine numbers are
   Nat/Int. -/

namespace GroupManager

/- ===================================================================
   Escalation controller (src/src/index.ts lines 47-53, 424-432, 506-523)
   =================================================================== -/

/-- Embedding of `GroupSettings` (src/src/index.ts:47-53). -/
structure GroupSettings where
  antilink : Bool
  antiforward : Bool
  autoMuteAfter : Nat
  autoMuteMinutes : Nat
  whitelist : List String
deriving DecidableEq, Repr

/-- Embedding of `defaultGroupSettings` (src/src/index.ts:424-432). -/
def defaultGroupSettings : GroupSettings :=
  { antilink := true
    antiforward := false
    autoMuteAfter := 3
    autoMuteMinutes := 30
    whitelist := [] }

/-- Pure core of `handleRuleViolation` (src/src/index.ts:506-523).
    Input: the settings and the persisted violation count for the
    (chat, user) pair; output: the count left in the store after the call
    and whether a mute (restrictChatMember) was issued.  The source
    increments the counter, persists it, and when
    `newCount >= settings.autoMuteAfter` mutes the user and persists "0". -/
def handleRuleViolation (s : GroupSettings) (count : Nat) : Nat × Bool :=
  let newCount := count + 1
  if s.autoMuteAfter ≤ newCount then (0, true) else (newCount, false)

/-- `n` sequential calls of `handleRuleViolation` for the same (chat, user)
    pair with no intervening reset, starting from persisted count `count`.
    Returns the final persisted count and the total number of mute calls. -/
def runViolations (s : GroupSettings) (count : Nat) : Nat → Nat × Nat
  | 0 => (count, 0)
  | n + 1 =>
    let r := handleRuleViolation s count
    let rest := runViolations s r.1 n
    (rest.1, (if r.2 then 1 else 0) + rest.2)

/- ===================================================================
   Settings loading (src/src/index.ts lines 434-450)
   =================================================================== -/

/-- Partial settings record as produced by `JSON.parse` of a stored
    settings value: each field may be absent from the stored JSON object
    (src/src/index.ts:440-446 spreads the parsed object over the
    defaults). -/
structure PartialGroupSettings where
  antilink : Option Bool
  antiforward : Option Bool
  autoMuteAfter : Option Nat
  autoMuteMinutes : Option Nat
  whitelist : Option (List String)
deriving DecidableEq, Repr

/-- Outcome of `JSON.parse` on a stored settings string: either corrupt
    (the parse throws) or a partial settings object. -/
inductive StoredSettings where
  | corrupt
  | parsed (p : PartialGroupSettings)
deriving DecidableEq, Repr

/-- Embedding of `getGroupSettings` (src/src/index.ts:434-450).  The
    argument is the raw KV value: `none` models a missing key, `corrupt`
    an unparsable value (the `catch` branch), and `parsed p` a JSON object
    that is spread over the defaults, with `whitelist: parsed.whitelist
    or []`. -/
def getGroupSettings (raw : Option StoredSettings) : GroupSettings :=
  match raw with
  | none => defaultGroupSettings
  | some StoredSettings.corrupt => defaultGroupSettings
  | some (StoredSettings.parsed p) =>
    { antilink := p.antilink.getD defaultGroupSettings.antilink
      antiforward := p.antiforward.getD defaultGroupSettings.antiforward
      autoMuteAfter := p.autoMuteAfter.getD defaultGroupSettings.autoMuteAfter
      autoMuteMinutes := p.autoMuteMinutes.getD defaultGroupSettings.autoMuteMinutes
      whitelist := p.whitelist.getD [] }

/- ===================================================================
   Deferred-deletion sweep `runDelAfterCron`
   (src/src/index.ts lines 55-59, 366-392, 670-695)
   =================================================================== -/

/-- Embedding of `DelAfterRecord` (src/src/index.ts:55-59). -/
structure DelAfterRecord where
  chatId : String
  messageId : Nat
  deleteAt : Nat
deriving DecidableEq, Repr

/-- Outcome of `JSON.parse` on a stored deletion-task value. -/
inductive ParsedVal where
  | corrupt
  | ok (r : DelAfterRecord)
deriving DecidableEq, Repr

/-- The `delafter:` keyspace of the KV store, in listing order.  A value of
    `none` models `get` returning null for a listed key. -/
abbrev DelStore := List (String × Option ParsedVal)

/-- The deletion-gateway call contributed by one store entry during a sweep
    at time `now`, if any (src/src/index.ts:688-691). -/
def delCallOf (now : Nat) (e : String × Option ParsedVal) : Option (String × Nat) :=
  match e.2 with
  | some (ParsedVal.ok r) =>
    if r.deleteAt ≤ now then some (r.chatId, r.messageId) else none
  | _ => none

/-- Whether a store entry survives a sweep at time `now`: a null value is
    skipped (key kept), a corrupt value is deleted, a parsed record is
    deleted exactly when due (src/src/index.ts:677-691). -/
def delKeep (now : Nat) (e : String × Option ParsedVal) : Bool :=
  match e.2 with
  | none => true
  | some ParsedVal.corrupt => false
  | some (ParsedVal.ok r) => !(r.deleteAt ≤ now)

/-- Embedding of `runDelAfterCron` (src/src/index.ts:670-695).  Walks the
    `delafter:` keyspace at time `now` (unix seconds); for each key: a null
    value is skipped, a corrupt value is deleted from the store, and a
    parsed record with `deleteAt <= now` triggers a deleteMessage gateway
    call followed by deletion of the key.  Returns the issued gateway calls
    in order together with the surviving store. -/
def runDelAfterCron (now : Nat) : DelStore → List (String × Nat) × DelStore
  | [] => ([], [])
  | e :: rest =>
    let r := runDelAfterCron now rest
    match e.2 with
    | none => (r.1, e :: r.2)
    | some ParsedVal.corrupt => (r.1, r.2)
    | some (ParsedVal.ok rec0) =>
      if rec0.deleteAt ≤ now
      then ((rec0.chatId, rec0.messageId) :: r.1, r.2)
      else (r.1, e :: r.2)

/- ===================================================================
   Deferred-deletion sweep `processDeleteQueue`
   (src/src/index.ts lines 1635-1640, 2271-2301)
   =================================================================== -/

/-- Embedding of `DeleteJob` (src/src/index.ts:1635-1640). -/
structure DeleteJob where
  chatId : Nat
  targetMessageId : Nat
  infoMessageId : Option Nat
  deleteAt : Nat
deriving DecidableEq, Repr

/-- The `delqueue:` keyspace of the KV store, in listing order; `none`
    models `get` returning null for a listed key. -/
abbrev JobStore := List (String × Option DeleteJob)

/-- The gateway calls one due job issues (src/src/index.ts:2287-2290): the
    target message, then the info message when `job.infoMessageId` is
    truthy (a stored 0 is falsy in JS and issues no call). -/
def jobCalls (j : DeleteJob) : List (Nat × Nat) :=
  (j.chatId, j.targetMessageId) ::
    (match j.infoMessageId with
     | some i => if i ≠ 0 then [(j.chatId, i)] else []
     | none => [])

/-- Whether a `delqueue:` entry survives a sweep at time `now`
    (src/src/index.ts:2282-2292): null values are skipped (key kept), due
    jobs are executed and their key deleted, future jobs are kept. -/
def jobKeep (now : Nat) (e : String × Option DeleteJob) : Bool :=
  match e.2 with
  | none => true
  | some j => !(j.deleteAt ≤ now)

/-- Embedding of `processDeleteQueue` (src/src/index.ts:2271-2301): sweep
    over the `delqueue:` keyspace at `now`, issuing the deletion calls for
    each due job and deleting its key.  Returns the calls in order and the
    surviving store. -/
def processDeleteQueue (now : Nat) : JobStore → List (Nat × Nat) × JobStore
  | [] => ([], [])
  | e :: rest =>
    let r := processDeleteQueue now rest
    match e.2 with
    | none => (r.1, e :: r.2)
    | some j =>
      if j.deleteAt ≤ now
      then (jobCalls j ++ r.1, r.2)
      else (r.1, e :: r.2)

/-- The (key, job) pairs a sweep at `now` executes: exactly the listed
    entries whose parsed job is due. -/
def dueEntries (now : Nat) (st : JobStore) : List (String × DeleteJob) :=
  st.filterMap (fun e =>
    match e.2 with
    | some j => if j.deleteAt ≤ now then some (e.1, j) else none
    | none => none)

/- ===================================================================
   Link detection: generic character/string helpers.

   The JS regexes are embedded as executable matchers over `List Char`.
   Case-insensitive matching (`/i`) is modelled by lowercasing the subject
   text once; every character class used by the source patterns is closed
   under ASCII case, and every literal in them is lowercase, so this is
   faithful.
   =================================================================== -/

/-- JS `\s` (whitespace). -/
def isSpaceChar (c : Char) : Bool := c.isWhitespace

/-- JS `\w` = `[A-Za-z0-9_]`. -/
def isWordChar (c : Char) : Bool := c.isAlpha || c.isDigit || c = '_'

/-- The class `[\w-]`. -/
def isWordDash (c : Char) : Bool := isWordChar c || c = '-'

/-- JS `String.prototype.includes`: `need` occurs as a contiguous substring
    of `hay`. -/
def includesList (need : List Char) : List Char → Bool
  | [] => need.isEmpty
  | c :: t => need.isPrefixOf (c :: t) || includesList need t

/-- Consume the literal `lit` from the front of `l`, returning the rest. -/
def dropLit : List Char → List Char → Option (List Char)
  | [], l => some l
  | _ :: _, [] => none
  | a :: as, c :: cs => if a = c then dropLit as cs else none

/-- `test` semantics: the pattern matches starting at some position. -/
def anySuffix (p : List Char → Bool) : List Char → Bool
  | [] => p []
  | c :: t => p (c :: t) || anySuffix p t

/-- Greedy run of characters satisfying `p` (a `+`/`*` over a class):
    longest prefix in the class and the remainder. -/
def takeRun (p : Char → Bool) : List Char → List Char × List Char
  | [] => ([], [])
  | c :: t =>
    if p c then
      let r := takeRun p t
      (c :: r.1, r.2)
    else ([], c :: t)

/- ===================================================================
   `containsDisallowedLink` (src/src/index.ts lines 542-567)
   =================================================================== -/

/-- Matcher for `/https?:\/\/\S+/i` at one position: `http`, an optional
    `s` (greedy, with backtracking), `://`, then at least one non-space. -/
def schemeTestAt (l : List Char) : Bool :=
  match dropLit "http".data l with
  | none => false
  | some rest =>
    match rest with
    | 's' :: r2 =>
      (match dropLit "://".data r2 with
       | some (c :: _) => !isSpaceChar c
       | _ =>
         match dropLit "://".data rest with
         | some (c :: _) => !isSpaceChar c
         | _ => false)
    | _ =>
      match dropLit "://".data rest with
      | some (c :: _) => !isSpaceChar c
      | _ => false

/-- After `www.` and one non-space character: scan for a later `.` followed
    by a non-space character, crossing only non-space characters
    (the `\S+\.\S+` part of `/www\.\S+\.\S+/i`, existential split). -/
def wwwTailAux : List Char → Bool
  | [] => false
  | c :: rest =>
    (c = '.' && (match rest with | d :: _ => !isSpaceChar d | [] => false)) ||
    (!isSpaceChar c && wwwTailAux rest)

/-- Matcher for `/www\.\S+\.\S+/i` at one position. -/
def wwwTestAt (l : List Char) : Bool :=
  match dropLit "www.".data l with
  | some (c :: rest) => !isSpaceChar c && wwwTailAux rest
  | _ => false

/-- The TLD alternation of the bare-domain pattern in
    `containsDisallowedLink` (src/src/index.ts:548), in source order. -/
def tlds1 : List String :=
  ["com", "net", "org", "io", "gg", "xyz", "info", "biz", "co", "me", "bd", "in", "uk", "us"]

/-- One of the TLD literals matches at the head of `l`. -/
def tldAt (ts : List String) (l : List Char) : Bool :=
  ts.any (fun t => t.data.isPrefixOf l)

/-- Continue a `[\w-]+` run until a `.` followed by a TLD
    (the run cannot extend past the `.`, which is outside the class). -/
def afterRunDot (ts : List String) : List Char → Bool
  | [] => false
  | c :: rest =>
    if c = '.' then tldAt ts rest
    else isWordDash c && afterRunDot ts rest

/-- Matcher for `[\w-]+\.(tld)` at one position (the optional `(\/\S*)?`
    tail of the source pattern never affects `test`). -/
def runDotTld (ts : List String) : List Char → Bool
  | [] => false
  | c :: rest => isWordDash c && afterRunDot ts rest

/-- JS `\b` before the first matched character `c`, given the previous
    character: word-ness must differ across the position. -/
def boundaryOk (prev : Option Char) (c : Char) : Bool :=
  (match prev with | none => false | some p => isWordChar p) != isWordChar c

/-- `test` for `/\b[\w-]+\.(com|...)(\/\S*)?/i`: scan all positions with a
    word boundary. -/
def bareTldScan (ts : List String) : Option Char → List Char → Bool
  | _, [] => false
  | prev, c :: rest =>
    (boundaryOk prev c && runDotTld ts (c :: rest)) || bareTldScan ts (some c) rest

/-- Matcher for a literal (such as `t.me/`) followed by at least one
    non-space character, at one position. -/
def litSlashTestAt (lit : String) (l : List Char) : Bool :=
  match dropLit lit.data l with
  | some (c :: _) => !isSpaceChar c
  | _ => false

/-- The `baseHasLink` disjunction of `containsDisallowedLink`
    (src/src/index.ts:545-550), over the lowercased text. -/
def baseHasLink (l : List Char) : Bool :=
  anySuffix schemeTestAt l || anySuffix wwwTestAt l || bareTldScan tlds1 none l ||
  anySuffix (litSlashTestAt "t.me/") l || anySuffix (litSlashTestAt "telegram.me/") l

/-- Embedding of `containsDisallowedLink` (src/src/index.ts:542-567).
    Returns true only if the text matches one of the link patterns AND, when
    the whitelist is non-empty, no whitelisted domain occurs in the
    lowercased text as a plain substring (`lowered.includes(domain)`). -/
def containsDisallowedLink (text : Option String) (whitelist : List String) : Bool :=
  match text with
  | none => false
  | some t =>
    if t.data.isEmpty then false
    else
      let l := t.data.map Char.toLower
      if !baseHasLink l then false
      else if whitelist.length > 0 &&
          whitelist.any (fun d => includesList (d.data.map Char.toLower) l) then false
      else true

/- ===================================================================
   `URL_PATTERN`, `extractHostname`, `hasNonWhitelistedLink`
   (src/unnamed/part_003 lines 875-914)
   =================================================================== -/

/-- The TLD alternation of `URL_PATTERN` (src/unnamed/part_003:876), in
    source order. -/
def urlTlds : List String :=
  ["com", "net", "org", "info", "biz", "xyz", "gg", "io", "gov", "edu", "co", "me",
   "tv", "pro", "shop", "online", "in", "bd", "uk", "us", "de", "fr", "ru", "cn"]

/-- The class `[a-z0-9.-]` (`/i`: subject is lowercased). -/
def isUrlBodyChar (c : Char) : Bool := c.isLower || c.isDigit || c = '.' || c = '-'

/-- Ordered alternation `(https?:\/\/|ftp:\/\/|www\.)` at one position,
    returning the consumed prefix and the rest. -/
def schemeAt (l : List Char) : Option (List Char × List Char) :=
  match dropLit "http".data l with
  | some rest =>
    (match rest with
     | 's' :: r2 =>
       (match dropLit "://".data r2 with
        | some r3 => some ("https://".data, r3)
        | none =>
          match dropLit "://".data rest with
          | some r3 => some ("http://".data, r3)
          | none => none)
     | _ =>
       match dropLit "://".data rest with
       | some r3 => some ("http://".data, r3)
       | none => none)
  | none =>
    match dropLit "ftp://".data l with
    | some r => some ("ftp://".data, r)
    | none =>
      match dropLit "www.".data l with
      | some r => some ("www.".data, r)
      | none => none

/-- First alternative of `URL_PATTERN`: a scheme/`www.` prefix and a greedy
    `[^\s]+`.  Returns (matched substring, rest). -/
def urlAlt1At (l : List Char) : Option (List Char × List Char) :=
  match schemeAt l with
  | none => none
  | some pr =>
    let r := takeRun (fun c => !isSpaceChar c) pr.2
    if r.1.isEmpty then none else some (pr.1 ++ r.1, r.2)

/-- Ordered TLD alternation: the first literal of `ts` matching at the head
    of `l`, with the rest of `l`. -/
def tldTake : List String → List Char → Option (List Char × List Char)
  | [], _ => none
  | t :: ts, l =>
    if t.data.isPrefixOf l then some (t.data, l.drop t.length) else tldTake ts l

/-- The greedy optional tail `(\/[^\s]*)?`. -/
def optSlash (l : List Char) : List Char × List Char :=
  match l with
  | '/' :: r =>
    let run := takeRun (fun c => !isSpaceChar c) r
    ('/' :: run.1, run.2)
  | _ => ([], l)

/-- Backtracking for the greedy `[a-z0-9.-]+` of the second alternative:
    `revA` is the currently consumed run prefix (reversed, longest first),
    `rem` the remaining input; shrink the run until a `.` + TLD follows. -/
def alt2Back : List Char → List Char → Option (List Char × List Char)
  | [], _ => none
  | a :: revA, rem =>
    match rem with
    | '.' :: r2 =>
      (match tldTake urlTlds r2 with
       | some tr =>
         let sl := optSlash tr.2
         some ((a :: revA).reverse ++ '.' :: (tr.1 ++ sl.1), sl.2)
       | none => alt2Back revA (a :: rem))
    | _ => alt2Back revA (a :: rem)

/-- Second alternative of `URL_PATTERN`:
    `[a-z0-9.-]+\.(tld)(\/[^\s]*)?` at one position. -/
def urlAlt2At (l : List Char) : Option (List Char × List Char) :=
  let r := takeRun isUrlBodyChar l
  if r.1.isEmpty then none else alt2Back r.1.reverse r.2

/-- `URL_PATTERN` at one position: the two alternatives in source order. -/
def urlMatchOneAt (l : List Char) : Option (List Char × List Char) :=
  match urlAlt1At l with
  | some m => some m
  | none => urlAlt2At l

/-- Leftmost `URL_PATTERN` match in `l`. -/
def urlSearch : List Char → Option (List Char × List Char)
  | [] => none
  | c :: t =>
    match urlMatchOneAt (c :: t) with
    | some m => some m
    | none => urlSearch t

/-- All (global-flag) matches, resuming after each match's end. -/
def urlMatchAll : Nat → List Char → List (List Char)
  | 0, _ => []
  | f + 1, l =>
    match urlSearch l with
    | none => []
    | some m => m.1 :: urlMatchAll f m.2

/-- `text.match(URL_PATTERN)` (src/unnamed/part_003:884-885), as the list
    of matched substrings. -/
def urlMatches (t : String) : List String :=
  (urlMatchAll (t.data.length + 1) (t.data.map Char.toLower)).map (fun l => String.mk l)

/-- Model of the platform builtin `new URL(text).hostname` for http/https
    URLs over plain ASCII hosts (no userinfo, no IPv6 brackets): strip the
    scheme, take characters up to the first `/`, `?`, `#` or `:`; an empty
    host is a parse failure. -/
def urlHostname (text : List Char) : Option (List Char) :=
  let afterScheme :=
    match dropLit "http://".data text with
    | some r => some r
    | none => dropLit "https://".data text
  match afterScheme with
  | none => none
  | some r =>
    let h := takeRun (fun c => !(c = '/' || c = '?' || c = '#' || c = ':')) r
    if h.1.isEmpty then none else some h.1

/-- Embedding of `extractHostname` (src/unnamed/part_003:906-914): prefix
    `http://` unless the candidate already starts with `http`, then parse
    as a URL; `none` models the thrown parse error. -/
def extractHostname (raw : String) : Option String :=
  let rawL := raw.data.map Char.toLower
  let text := if "http".data.isPrefixOf rawL then rawL else "http://".data ++ rawL
  (urlHostname text).map (fun l => String.mk l)

/-- Embedding of `hasNonWhitelistedLink` (src/unnamed/part_003:883-904):
    collect all `URL_PATTERN` matches; with a non-empty whitelist a match is
    allowed exactly when its extracted hostname equals a whitelisted domain
    or ends with `"." + domain` (dot-boundary subdomain match); any
    non-allowed match (or failed hostname extraction) flags the text. -/
def hasNonWhitelistedLink (text : String) (whitelist : List String) : Bool :=
  let ms := urlMatches text
  if ms.isEmpty then false
  else if whitelist.isEmpty then true
  else
    ms.any (fun m =>
      match extractHostname m with
      | none => true
      | some host =>
        let lowerHost := host.data.map Char.toLower
        !(whitelist.any (fun d =>
          let dd := d.data.map Char.toLower
          lowerHost == dd || ('.' :: dd).isSuffixOf lowerHost)))

/- ===================================================================
   Messages and forward detection
   (src/src/index.ts lines 25-40, 527-535; src/unnamed/part_003:916-925)
   =================================================================== -/

/-- JS string truthiness of an optional string field (`undefined` and `""`
    are falsy). -/
def truthyStr : Option String → Bool
  | none => false
  | some s => !s.data.isEmpty

/-- JS number truthiness of an optional numeric field (`undefined` and `0`
    are falsy). -/
def truthyNum : Option Nat → Bool
  | none => false
  | some n => n != 0

/-- JS truthiness of an optional boolean field. -/
def truthyBool : Option Bool → Bool
  | none => false
  | some b => b

/-- Embedding of the wire-format message record (`TelegramMessage`,
    src/src/index.ts:25-40, extended with the `forward_origin`, `story`,
    `new_chat_members` and `left_chat_member` fields read by the other
    variants).  Object-valued fields are modelled by their presence (and an
    identifying number where one is read); each variant reads only the
    fields its source mentions. -/
structure TgMessage where
  message_id : Nat
  chatId : Nat
  fromId : Option Nat
  text : Option String
  caption : Option String
  forward_from : Option Nat
  forward_from_chat : Option Nat
  forward_sender_name : Option String
  forward_date : Option Nat
  is_automatic_forward : Option Bool
  forward_origin : Option Unit
  story : Option Unit
  new_chat_members : Option (List Nat)
  left_chat_member : Option Nat
deriving DecidableEq, Repr

/-- Embedding of `isForwarded` (src/src/index.ts:527-535): the five legacy
    forward fields, any truthy one suffices. -/
def isForwarded (m : TgMessage) : Bool :=
  m.forward_from.isSome || m.forward_from_chat.isSome ||
  truthyStr m.forward_sender_name || truthyNum m.forward_date ||
  truthyBool m.is_automatic_forward

namespace Part003

/-- Embedding of `isForwarded` (src/unnamed/part_003:916-925): six fields
    including `forward_origin` and `story`. -/
def isForwarded (m : TgMessage) : Bool :=
  m.forward_from.isSome || m.forward_from_chat.isSome ||
  truthyStr m.forward_sender_name || m.forward_origin.isSome ||
  truthyBool m.is_automatic_forward || m.story.isSome

end Part003

/- ===================================================================
   part_000 group moderation (src/unnamed/part_000 lines 71-89, 251-281,
   346-351)
   =================================================================== -/

/-- JS `a || b` over an optional string (empty string is falsy). -/
def jsOrStr (a : Option String) (b : String) : String :=
  match a with
  | some s => if s.data.isEmpty then b else s
  | none => b

namespace Part000

/-- Embedding of `GroupSettings` (src/unnamed/part_000:71-79). -/
structure GroupSettings where
  antilink : Bool
  antiforward : Bool
  warnLimit : Nat
  autoMuteMinutes : Nat
  deleteJoin : Bool
  deleteLeave : Bool
  whitelist : List String
deriving DecidableEq, Repr

/-- Embedding of `DEFAULT_SETTINGS` (src/unnamed/part_000:81-89). -/
def DEFAULT_SETTINGS : GroupSettings :=
  { antilink := true
    antiforward := true
    warnLimit := 3
    autoMuteMinutes := 30
    deleteJoin := true
    deleteLeave := true
    whitelist := [] }

/-- The class `[a-z0-9-]` (`/i`: subject is lowercased). -/
def alnumDash (c : Char) : Bool := c.isLower || c.isDigit || c = '-'

/-- Continue a `[a-z0-9-]+` run until a `.` followed by two letters
    (the `[a-z]{2,}` of the part_000 pattern; two suffice for `test`). -/
def bare2After : List Char → Bool
  | '.' :: a :: b :: _ => a.isLower && b.isLower
  | c :: rest => alnumDash c && bare2After rest
  | _ => false

/-- Matcher for `[a-z0-9-]+\.[a-z]{2,}` at one position. -/
def bare2At : List Char → Bool
  | c :: rest => alnumDash c && bare2After rest
  | [] => false

/-- Embedding of `hasLink` (src/unnamed/part_000:346-351): the alternation
    `(https?:\/\/|www\.|t\.me\/|telegram\.me\/|[a-z0-9-]+\.[a-z]{2,})/i`
    tested against the text, then the whitelist is matched by plain
    substring containment on the lowercased text. -/
def hasLink (text : String) (whitelist : List String) : Bool :=
  let l := text.data.map Char.toLower
  let rxHit :=
    includesList "http://".data l || includesList "https://".data l ||
    includesList "www.".data l || includesList "t.me/".data l ||
    includesList "telegram.me/".data l || anySuffix bare2At l
  if !rxHit then false
  else !(whitelist.any (fun d => includesList d.data l))

/-- Outcome of the part_000 group-message handler. -/
inductive Action where
  | joinCleanup
  | leaveCleanup
  | forwardViolation
  | linkViolation
  | nothing
deriving DecidableEq, Repr

/-- Embedding of the moderation decision of `handleGroup`
    (src/unnamed/part_000:251-281): join/leave cleanup first, then — for
    messages with a sender — the anti-forward check reads only `story`,
    `forward_origin` and `is_automatic_forward`, then the anti-link
    check. -/
def handleGroup (s : GroupSettings) (m : TgMessage) : Action :=
  if s.deleteJoin && m.new_chat_members.isSome then Action.joinCleanup
  else if s.deleteLeave && m.left_chat_member.isSome then Action.leaveCleanup
  else
    let text := jsOrStr m.text (jsOrStr m.caption "")
    match m.fromId with
    | none => Action.nothing
    | some _ =>
      if s.antiforward &&
          (m.story.isSome || m.forward_origin.isSome || truthyBool m.is_automatic_forward) then
        Action.forwardViolation
      else if s.antilink && hasLink text s.whitelist then Action.linkViolation
      else Action.nothing

end Part000

/- ===================================================================
   Group-message handling pipeline as an effect trace
   (src/src/index.ts lines 278-308, 506-523)
   =================================================================== -/

/-- One observable side effect of a message-handling pass, in issue
    order. -/
inductive Effect where
  | command
  | kvGet (key : String)
  | kvPut (key : String) (value : String)
  | deleteMsg (chatId : String) (messageId : Nat)
  | restrict (chatId : String) (userId : Nat) (minutes : Nat)
  | sendMsg (chatId : String)
deriving DecidableEq, Repr

/-- The violation-counter key (src/src/index.ts:507). -/
def violationsKey (chatId : String) (userId : Nat) : String :=
  "violations:" ++ chatId ++ ":" ++ toString userId

/-- Effect trace of `handleRuleViolation` (src/src/index.ts:506-523), in
    source order: read the counter, persist the incremented value, and when
    the threshold is reached restrict the user, persist "0" and announce
    the mute. -/
def handleRuleViolationTrace (s : GroupSettings) (chatId : String) (userId : Nat)
    (count : Nat) : List Effect :=
  let newCount := count + 1
  [Effect.kvGet (violationsKey chatId userId),
   Effect.kvPut (violationsKey chatId userId) (toString newCount)] ++
  (if s.autoMuteAfter ≤ newCount then
    [Effect.restrict chatId userId s.autoMuteMinutes,
     Effect.kvPut (violationsKey chatId userId) "0",
     Effect.sendMsg chatId]
   else [])

/-- `message.text || message.caption || ""` (src/src/index.ts:280). -/
def msgText (m : TgMessage) : String := jsOrStr m.text (jsOrStr m.caption "")

/-- `message.chat.id.toString()` (src/src/index.ts:279). -/
def chatStr (m : TgMessage) : String := toString m.chatId

/-- `text.startsWith("/")` (src/src/index.ts:287). -/
def startsSlash (t : String) : Bool :=
  match t.data with
  | '/' :: _ => true
  | _ => false

/-- Effect trace of `handleGroupMessage` (src/src/index.ts:278-308) for a
    group message, given the loaded settings and the persisted violation
    count the rule-violation handler will read: commands are dispatched
    first; an anti-forward hit deletes the message and then runs the
    violation handler; otherwise an anti-link hit does the same. -/
def handleGroupMessageTrace (s : GroupSettings) (m : TgMessage) (count : Nat) :
    List Effect :=
  let chatId := chatStr m
  let text := msgText m
  if startsSlash text then [Effect.command]
  else if s.antiforward && isForwarded m then
    Effect.deleteMsg chatId m.message_id ::
      (match m.fromId with
       | some uid => handleRuleViolationTrace s chatId uid count
       | none => [])
  else if s.antilink && containsDisallowedLink (some text) s.whitelist then
    Effect.deleteMsg chatId m.message_id ::
      (match m.fromId with
       | some uid => handleRuleViolationTrace s chatId uid count
       | none => [])
  else []

/- ===================================================================
   part_001 cron sweep with gateway outcomes
   (src/unnamed/part_001 lines 795-844, 865-885)
   =================================================================== -/

/-- Embedding of `DelEntry` (the value stored under `delqueue:` keys in
    part_001: a chat and the message ids to delete). -/
structure DelEntry where
  chat_id : String
  message_ids : List Nat
deriving DecidableEq, Repr

/-- Outcome of `JSON.parse` on a stored `delqueue:` value. -/
inductive RawVal where
  | corrupt
  | entry (e : DelEntry)
deriving DecidableEq, Repr

/-- A `delqueue:<ts>:...` key: the due timestamp embedded in the key name
    (`Number(parts[1] || 0)`) and the remainder of the name. -/
structure CronKey where
  ts : Nat
  tail : String
deriving DecidableEq, Repr

/-- The `delqueue:` keyspace in listing order; `none` models `get`
    returning null. -/
abbrev CronStore := List (CronKey × Option RawVal)

/-- Outcome of one Telegram gateway call: either the fetch promise rejects
    (network failure) or an HTTP response arrives (possibly an API error,
    `ok = false`). -/
inductive GwOutcome where
  | network
  | response (ok : Bool)
deriving DecidableEq, Repr

/-- Embedding of `tgCall`/`deleteMessage` (src/unnamed/part_001:795-800,
    865-885) under an outcome oracle `gw`: an HTTP response — even an API
    error, which is only logged — returns normally; a rejected fetch
    propagates as an exception (there is no try/catch around the fetch). -/
def tgCallDelete (gw : String → Nat → GwOutcome) (c : String) (mid : Nat) :
    Except Unit Unit :=
  match gw c mid with
  | GwOutcome.network => Except.error ()
  | GwOutcome.response _ => Except.ok ()

/-- The inner loop of `handleCron` over one entry's `message_ids`
    (src/unnamed/part_001:837-839), collecting the issued calls. -/
def runMsgs (gw : String → Nat → GwOutcome) (c : String) :
    List Nat → Except Unit (List (String × Nat))
  | [] => Except.ok []
  | mid :: rest =>
    match tgCallDelete gw c mid with
    | Except.error e => Except.error e
    | Except.ok _ =>
      match runMsgs gw c rest with
      | Except.error e => Except.error e
      | Except.ok l => Except.ok ((c, mid) :: l)

/-- The skip condition of `handleCron` (src/unnamed/part_001:815-816):
    `if (!ts || ts > now) continue` — the key is left alone when its
    embedded timestamp is falsy or in the future. -/
def cronSkip (now : Nat) (k : CronKey) : Bool :=
  decide (k.ts = 0) || decide (now < k.ts)

/-- Embedding of `handleCron` (src/unnamed/part_001:804-844): for each
    `delqueue:` key, skip it unless its embedded timestamp is truthy and
    `<= now`; a null or corrupt value is deleted; a parsed entry has each
    of its messages deleted via the gateway (an exception from the gateway
    aborts the whole sweep) and then its key deleted.  Returns the issued
    calls and the surviving store, or the propagated exception. -/
def handleCron (gw : String → Nat → GwOutcome) (now : Nat) :
    CronStore → Except Unit (List (String × Nat) × CronStore)
  | [] => Except.ok ([], [])
  | (k, v) :: rest =>
    if cronSkip now k then
      match handleCron gw now rest with
      | Except.error e => Except.error e
      | Except.ok r => Except.ok (r.1, (k, v) :: r.2)
    else
      match v with
      | none => handleCron gw now rest
      | some RawVal.corrupt => handleCron gw now rest
      | some (RawVal.entry en) =>
        match runMsgs gw en.chat_id en.message_ids with
        | Except.error e => Except.error e
        | Except.ok calls =>
          match handleCron gw now rest with
          | Except.error e => Except.error e
          | Except.ok r => Except.ok (calls ++ r.1, r.2)

/-- The calls one `delqueue:` entry contributes to a fully successful
    sweep at `now`. -/
def cronCallsOf (now : Nat) (e : CronKey × Option RawVal) : List (String × Nat) :=
  if cronSkip now e.1 then []
  else
    match e.2 with
    | some (RawVal.entry en) => en.message_ids.map (fun mid => (en.chat_id, mid))
    | _ => []

/-- The calls a fully successful sweep at `now` issues, entry by entry. -/
def cronCalls (now : Nat) : CronStore → List (String × Nat)
  | [] => []
  | e :: rest => cronCallsOf now e ++ cronCalls now rest

/-- Whether a `delqueue:` entry survives a sweep at `now`: exactly the
    entries the due-check skips. -/
def cronKeep (now : Nat) (e : CronKey × Option RawVal) : Bool :=
  cronSkip now e.1

/-- A gateway oracle modelling a network outage: every fetch rejects. -/
def gwDown : String → Nat → GwOutcome := fun _ _ => GwOutcome.network

/-- A gateway oracle modelling Telegram API errors: every fetch resolves
    with an `ok: false` response. -/
def gwApiError : String → Nat → GwOutcome := fun _ _ => GwOutcome.response false

/-- A concrete `delqueue:` store with two due tasks. -/
def cronSt0 : CronStore :=
  [(⟨50, "a"⟩, some (RawVal.entry ⟨"1", [11]⟩)),
   (⟨50, "b"⟩, some (RawVal.entry ⟨"1", [22]⟩))]

/-- A concrete message whose only forward metadata is a non-empty
    `forward_sender_name`. -/
def nameOnlyForward : TgMessage :=
  { message_id := 10
    chatId := 5
    fromId := some 7
    text := some "hello"
    caption := none
    forward_from := none
    forward_from_chat := none
    forward_sender_name := some "Alice"
    forward_date := none
    is_automatic_forward := none
    forward_origin := none
    story := none
    new_chat_members := none
    left_chat_member := none }

/-- A concrete non-forwarded message whose text is a bare invite link. -/
def linkViolationMsg : TgMessage :=
  { message_id := 11
    chatId := 5
    fromId := some 7
    text := some "t.me/spam"
    caption := none
    forward_from := none
    forward_from_chat := none
    forward_sender_name := none
    forward_date := none
    is_automatic_forward := none
    forward_origin := none
    story := none
    new_chat_members := none
    left_chat_member := none }

/- ===================================================================
   Violation ledger decrement (spec section 4.2)
   =================================================================== -/

/-- Modelled from the spec: the repository source under src/ contains no
    decrement / "forgive one warning" operation — only increment and
    reset-on-mute are implemented — so the ledger decrement is modelled
    from the spec's words: `decrement(chatId, userId)` sets the stored
    count for that key to `max(0, current - 1)`. -/
def decrement (led : String × Nat → Int) (key : String × Nat) : String × Nat → Int :=
  fun k => if k = key then max 0 (led key - 1) else led k

/- ===================================================================
   Webhook entry points (src/src/index.ts lines 63-90;
   src/unnamed/part_000 lines 93-112)
   =================================================================== -/

/-- Outcome of `request.json()` on the POST body: the parse throws, it
    yields a falsy value (the JSON texts `null`, `false`, `0`, `""`), or it
    yields an update object (which may or may not carry a message). -/
inductive BodyParse where
  | invalid
  | nullish
  | update (hasMessage : Bool)
deriving DecidableEq, Repr

/-- An HTTP response as status and body. -/
structure HttpResponse where
  status : Nat
  body : String
deriving DecidableEq, Repr

/-- Embedding of the `fetch` entry point (src/src/index.ts:63-85): non-POST
    gets 200 "OK"; an unparsable body gets 400 "Bad Request"; a falsy
    parsed value gets 400 "No update"; any parsed update gets 200 "OK" —
    the moderation work is deferred via `ctx.waitUntil` and never
    influences the response. -/
def workerFetch (method : String) (b : BodyParse) : HttpResponse :=
  if method ≠ "POST" then ⟨200, "OK"⟩
  else
    match b with
    | BodyParse.invalid => ⟨400, "Bad Request"⟩
    | BodyParse.nullish => ⟨400, "No update"⟩
    | BodyParse.update _ => ⟨200, "OK"⟩

/-- Embedding of the `fetch` entry point of part_000
    (src/unnamed/part_000:93-107): there is no try/catch around
    `req.json()`, so an unparsable body rejects the handler instead of
    producing a 400; a falsy parsed value throws on the
    `update.callback_query` property access; otherwise 200 "OK". -/
def part000Fetch (method : String) (b : BodyParse) : Except Unit HttpResponse :=
  if method ≠ "POST" then Except.ok ⟨200, "OK"⟩
  else
    match b with
    | BodyParse.invalid => Except.error ()
    | BodyParse.nullish => Except.error ()
    | BodyParse.update _ => Except.ok ⟨200, "OK"⟩

theorem runViolations_eq (s : GroupSettings) (hT : 1 ≤ s.autoMuteAfter) :
    ∀ n c, c < s.autoMuteAfter →
      runViolations s c n = ((c + n) % s.autoMuteAfter, (c + n) / s.autoMuteAfter) := by
  intro n
  induction n with
  | zero =>
    intro c hc
    simp [runViolations, Nat.mod_eq_of_lt hc, Nat.div_eq_of_lt hc]
  | succ n ih =>
    intro c hc
    by_cases hmute : s.autoMuteAfter ≤ c + 1
    · have hceq : c + 1 = s.autoMuteAfter := le_antisymm hc hmute
      have h0 : (0 : Nat) < s.autoMuteAfter := hT
      have hsum : c + (n + 1) = s.autoMuteAfter + n := by omega
      have h1 : (s.autoMuteAfter + n) % s.autoMuteAfter = n % s.autoMuteAfter :=
        Nat.add_mod_left _ _
      have h2 : (s.autoMuteAfter + n) / s.autoMuteAfter = n / s.autoMuteAfter + 1 := by
        rw [Nat.add_comm, Nat.add_div_right _ h0]
      simp only [runViolations, handleRuleViolation, if_pos hmute, ih 0 h0, hsum, h1, h2]
      simp [Nat.add_comm]
    · have hlt : c + 1 < s.autoMuteAfter := lt_of_not_ge hmute
      have hsum : c + 1 + n = c + (n + 1) := by omega
      simp only [runViolations, handleRuleViolation, if_neg hmute, ih (c + 1) hlt, hsum]
      simp

/-- **C1** (threshold convergence).  For every (chat, user) pair, processing
    `n` violations sequentially from a clean ledger with no intervening
    reset issues exactly `n / threshold` mute calls (one per `threshold`
    violations); the persisted count immediately after any call that issued
    a mute is exactly 0 (the reset happens inside the same call that
    mutes); and the at-rest invariant `count < threshold` is preserved by
    every violation-handling call. -/
theorem c1_threshold_convergence (s : GroupSettings) (n : Nat)
    (hT : 1 ≤ s.autoMuteAfter) :
    (runViolations s 0 n).2 = n / s.autoMuteAfter ∧
    (runViolations s 0 n).1 = n % s.autoMuteAfter ∧
    (∀ c, (handleRuleViolation s c).2 = true → (handleRuleViolation s c).1 = 0) ∧
    (∀ c, c < s.autoMuteAfter → (handleRuleViolation s c).1 < s.autoMuteAfter) := by
  have h := runViolations_eq s hT n 0 hT
  refine ⟨by rw [h]; simp, by rw [h]; simp, ?_, ?_⟩
  · intro c hmute
    unfold handleRuleViolation at hmute ⊢
    by_cases hx : s.autoMuteAfter ≤ c + 1
    · simp [hx]
    · simp [hx] at hmute
  · intro c hc
    unfold handleRuleViolation
    by_cases hx : s.autoMuteAfter ≤ c + 1
    · simpa [hx]
    · simp only [hx, if_false]
      omega

/-- Witness for C1: with the default settings (threshold 3), seven
    violations from a clean ledger issue exactly 2 = 7 / 3 mutes and leave
    the count at 1 = 7 % 3. -/
theorem c1_witness :
    (runViolations defaultGroupSettings 0 7).2 = 7 / 3 ∧
    (runViolations defaultGroupSettings 0 7).1 = 7 % 3 := by
  have h := c1_threshold_convergence defaultGroupSettings 7 (by decide)
  exact ⟨h.1, h.2.1⟩

theorem runDelAfterCron_eq (now : Nat) (st : DelStore) :
    runDelAfterCron now st = (st.filterMap (delCallOf now), st.filter (delKeep now)) := by
  induction st with
  | nil => rfl
  | cons e rest ih =>
    cases e with
    | mk k v =>
      cases v with
      | none => simp [runDelAfterCron, ih, delCallOf, delKeep, List.filterMap_cons]
      | some pv =>
        cases pv with
        | corrupt => simp [runDelAfterCron, ih, delCallOf, delKeep, List.filterMap_cons]
        | ok r =>
          by_cases hdue : r.deleteAt ≤ now
          · simp [runDelAfterCron, ih, delCallOf, delKeep, List.filterMap_cons, hdue]
          · simp [runDelAfterCron, ih, delCallOf, delKeep, List.filterMap_cons, hdue]

/-- **C3** (deferred delay lower bound).  If every stored deletion task for
    the pair (chat `c`, message `m`) was scheduled with due time `t + d`
    and the sweep runs at `now < t + d`, then the sweep issues no
    deletion-gateway call for that message: deletion may be late but never
    early. -/
theorem c3_no_early_deletion (now t d : Nat) (st : DelStore) (c : String) (m : Nat)
    (h : ∀ k r, (k, some (ParsedVal.ok r)) ∈ st → r.chatId = c → r.messageId = m →
      r.deleteAt = t + d ∧ now < t + d) :
    (c, m) ∉ (runDelAfterCron now st).1 := by
  rw [runDelAfterCron_eq]
  intro hmem
  rcases List.mem_filterMap.mp hmem with ⟨⟨k, v⟩, hin, hcall⟩
  cases v with
  | none => simp [delCallOf] at hcall
  | some pv =>
    cases pv with
    | corrupt => simp [delCallOf] at hcall
    | ok r =>
      simp only [delCallOf] at hcall
      by_cases hdue : r.deleteAt ≤ now
      · rw [if_pos hdue] at hcall
        have hc : r.chatId = c := (Prod.mk.injEq _ _ _ _ ▸ Option.some.injEq _ _ ▸ hcall).1
        have hm : r.messageId = m := (Prod.mk.injEq _ _ _ _ ▸ Option.some.injEq _ _ ▸ hcall).2
        have := h k r hin hc hm
        omega
      · rw [if_neg hdue] at hcall
        exact Option.noConfusion hcall

/-- Witness for C3: a task scheduled at t = 100 with delaySeconds = 30
    (due time 130) is not executed by a sweep at now = 120 < 130. -/
theorem c3_witness :
    ("42", 7) ∉ (runDelAfterCron 120
      [("delafter:42:7", some (ParsedVal.ok ⟨"42", 7, 130⟩))]).1 := by
  refine c3_no_early_deletion 120 100 30 _ "42" 7 ?_
  intro k r hin hc hm
  simp only [List.mem_singleton, Prod.mk.injEq, Option.some.injEq] at hin
  have hr : r = ⟨"42", 7, 130⟩ := (ParsedVal.ok.injEq _ _).mp hin.2
  rw [hr]
  exact ⟨rfl, by omega⟩

/-- **C8** (malformed persisted records).  A corrupt (unparsable) stored
    policy record makes `getGroupSettings` fall back to the system
    defaults, exactly as an absent record does; and a corrupt deletion-task
    entry is discarded by the sweep: it contributes no gateway call, its
    key is deleted from the store, and the remaining entries are processed
    exactly as if the corrupt entry were not there. -/
theorem c8_corrupt_records :
    getGroupSettings (some StoredSettings.corrupt) = defaultGroupSettings ∧
    getGroupSettings none = defaultGroupSettings ∧
    ∀ (now : Nat) (pre post : DelStore) (k : String),
      runDelAfterCron now (pre ++ (k, some ParsedVal.corrupt) :: post)
        = ((pre ++ post).filterMap (delCallOf now), (pre ++ post).filter (delKeep now)) := by
  refine ⟨rfl, rfl, ?_⟩
  intro now pre post k
  rw [runDelAfterCron_eq]
  simp [List.filterMap_append, List.filter_append, delCallOf, delKeep]

theorem processDeleteQueue_store_eq (now : Nat) (st : JobStore) :
    (processDeleteQueue now st).2 = st.filter (jobKeep now) := by
  induction st with
  | nil => rfl
  | cons e rest ih =>
    cases e with
    | mk k v =>
      cases v with
      | none => simp [processDeleteQueue, ih, jobKeep]
      | some j =>
        by_cases hdue : j.deleteAt ≤ now
        · simp [processDeleteQueue, ih, jobKeep, hdue]
        · simp [processDeleteQueue, ih, jobKeep, hdue]

/-- **C4** (idempotent sweep).  A task that a sweep executed — its key was
    removed together with the execution — is not seen by a second sweep run
    with no new tasks scheduled in between, whatever its `now` is.  Hence
    two successive sweeps produce at most one batch of deletion calls per
    originally-due task. -/
theorem c4_idempotent_sweep (now1 now2 : Nat) (st : JobStore)
    (k : String) (j : DeleteJob)
    (h : (k, j) ∈ dueEntries now1 st) :
    (k, j) ∉ dueEntries now2 (processDeleteQueue now1 st).2 := by
  have hdue1 : j.deleteAt ≤ now1 := by
    rcases List.mem_filterMap.mp h with ⟨⟨k', v'⟩, _, hf⟩
    cases v' with
    | none => exact Option.noConfusion hf
    | some j' =>
      simp only at hf
      by_cases hd : j'.deleteAt ≤ now1
      · rw [if_pos hd] at hf
        rcases Option.some.injEq _ _ ▸ hf with hkj
        have : j' = j := (Prod.mk.injEq _ _ _ _ ▸ hkj).2
        rw [← this]
        exact hd
      · rw [if_neg hd] at hf
        exact Option.noConfusion hf
  intro h2
  rcases List.mem_filterMap.mp h2 with ⟨⟨k', v'⟩, hin', hf⟩
  rw [processDeleteQueue_store_eq] at hin'
  have hkeep : jobKeep now1 (k', v') = true := List.of_mem_filter hin'
  cases v' with
  | none => exact Option.noConfusion hf
  | some j' =>
    simp only at hf
    by_cases hd : j'.deleteAt ≤ now2
    · rw [if_pos hd] at hf
      have hj : j' = j := (Prod.mk.injEq _ _ _ _ ▸ Option.some.injEq _ _ ▸ hf).2
      simp only [jobKeep, Bool.not_eq_true'] at hkeep
      rw [hj] at hkeep
      simp only [decide_eq_false_iff_not] at hkeep
      exact hkeep hdue1
    · rw [if_neg hd] at hf
      exact Option.noConfusion hf

/-- Witness for C4: a job due at 50 executed by a sweep at now = 60 is not
    executed again by a second sweep at now = 70. -/
theorem c4_witness :
    ("delqueue:1:5", (⟨1, 5, none, 50⟩ : DeleteJob)) ∈
      dueEntries 60 [("delqueue:1:5", some ⟨1, 5, none, 50⟩)] ∧
    ("delqueue:1:5", (⟨1, 5, none, 50⟩ : DeleteJob)) ∉
      dueEntries 70 (processDeleteQueue 60 [("delqueue:1:5", some ⟨1, 5, none, 50⟩)]).2 := by
  constructor
  · simp [dueEntries]
  · exact c4_idempotent_sweep 60 70 _ _ _ (by simp [dueEntries])

/-- **C2, counterexample.**  The claim states that with whitelist
    `{"example.com"}` the evaluator flags a message containing
    `example.com.evil.net` as a link violation.  `containsDisallowedLink`
    (src/src/index.ts:542-567) matches the whitelist by plain substring
    containment, so the lowercased text contains `example.com` and the
    message is allowed: the claim is false on this evaluator. -/
theorem c2_counterexample :
    ¬ containsDisallowedLink (some "example.com.evil.net") ["example.com"] = true := by
  decide

/-- **C2, amended.**  With whitelist `{"example.com"}`, the
    `hasNonWhitelistedLink` evaluator (src/unnamed/part_003:883-904) does
    not flag `https://example.com/x`, `www.example.com` or
    `sub.example.com`, and does flag `example.com.evil.net` and
    `notexample.com`: its whitelist matching is by exact hostname or
    dot-boundary subdomain.  The `containsDisallowedLink` evaluator
    (src/src/index.ts:542-567) instead matches by plain substring
    containment and classifies both `example.com.evil.net` and
    `notexample.com` as non-violating. -/
theorem c2_amended :
    hasNonWhitelistedLink "https://example.com/x" ["example.com"] = false ∧
    hasNonWhitelistedLink "www.example.com" ["example.com"] = false ∧
    hasNonWhitelistedLink "sub.example.com" ["example.com"] = false ∧
    hasNonWhitelistedLink "example.com.evil.net" ["example.com"] = true ∧
    hasNonWhitelistedLink "notexample.com" ["example.com"] = true ∧
    containsDisallowedLink (some "example.com.evil.net") ["example.com"] = false ∧
    containsDisallowedLink (some "notexample.com") ["example.com"] = false := by
  refine ⟨?_, ?_, ?_, ?_, ?_, ?_, ?_⟩ <;> decide

/-- Helper: whenever a group message (with a sender) is handled as a
    violation — by the anti-forward branch or the anti-link branch — the
    trace is exactly the deletion of the offending message followed by the
    rule-violation handler's trace. -/
theorem handleGroupMessageTrace_violation (s : GroupSettings) (m : TgMessage)
    (count uid : Nat)
    (hcmd : startsSlash (msgText m) = false)
    (hfrom : m.fromId = some uid)
    (hviol : (s.antiforward && isForwarded m) = true ∨
             (s.antilink && containsDisallowedLink (some (msgText m)) s.whitelist) = true) :
    handleGroupMessageTrace s m count =
      Effect.deleteMsg (chatStr m) m.message_id ::
        handleRuleViolationTrace s (chatStr m) uid count := by
  by_cases hfwd : (s.antiforward && isForwarded m) = true
  · simp only [handleGroupMessageTrace, hcmd, hfwd, hfrom, Bool.false_eq_true,
      if_false, if_true]
  · have hlink : (s.antilink && containsDisallowedLink (some (msgText m)) s.whitelist)
        = true := by
      rcases hviol with h | h
      · exact absurd h hfwd
      · exact h
    simp only [handleGroupMessageTrace, hcmd, hfwd, hlink, hfrom, Bool.false_eq_true,
      if_false, if_true]

/-- **C5, counterexample.**  The claim states that a message whose only
    forward metadata is a set forward-sender-name is classified as a
    forward violation whenever forward filtering is enabled.  In the
    part_000 variant the anti-forward check reads only `story`,
    `forward_origin` and `is_automatic_forward`, so with its default
    settings (antiforward ON) such a message is not flagged at all. -/
theorem c5_counterexample :
    Part000.DEFAULT_SETTINGS.antiforward = true ∧
    ¬ Part000.handleGroup Part000.DEFAULT_SETTINGS nameOnlyForward
        = Part000.Action.forwardViolation := by
  constructor
  · rfl
  · decide

/-- **C5, amended.**  For every message whose forward-sender-name is set
    (non-empty) and whose other forward metadata is absent, both dedicated
    forward classifiers named `isForwarded` (src/src/index.ts:527-535 and
    src/unnamed/part_003:916-925) return true, and the src/src/index.ts
    pipeline with forward filtering enabled handles the message as a
    forward violation (deletes it and runs the violation handler); the
    part_000 variant's inline check misses such messages. -/
theorem c5_amended (m : TgMessage) (s : GroupSettings) (count uid : Nat)
    (hname : truthyStr m.forward_sender_name = true)
    (_h1 : m.forward_from = none) (_h2 : m.forward_from_chat = none)
    (_h3 : m.forward_date = none) (_h4 : m.is_automatic_forward = none)
    (_h5 : m.forward_origin = none) (_h6 : m.story = none)
    (haf : s.antiforward = true)
    (hcmd : startsSlash (msgText m) = false)
    (hfrom : m.fromId = some uid) :
    isForwarded m = true ∧ Part003.isForwarded m = true ∧
    handleGroupMessageTrace s m count =
      Effect.deleteMsg (chatStr m) m.message_id ::
        handleRuleViolationTrace s (chatStr m) uid count := by
  have hif : isForwarded m = true := by
    simp [isForwarded, hname]
  refine ⟨hif, ?_, ?_⟩
  · simp [Part003.isForwarded, hname]
  · exact handleGroupMessageTrace_violation s m count uid hcmd hfrom
      (Or.inl (by rw [haf, hif]; rfl))

/-- Witness for C5 (amended): a concrete sender-name-only forward, handled
    with forward filtering on. -/
theorem c5_witness :
    isForwarded nameOnlyForward = true ∧
    Part003.isForwarded nameOnlyForward = true ∧
    handleGroupMessageTrace { defaultGroupSettings with antiforward := true }
        nameOnlyForward 0 =
      Effect.deleteMsg (chatStr nameOnlyForward) nameOnlyForward.message_id ::
        handleRuleViolationTrace { defaultGroupSettings with antiforward := true }
          (chatStr nameOnlyForward) 7 0 :=
  c5_amended nameOnlyForward { defaultGroupSettings with antiforward := true } 0 7
    (by decide) rfl rfl rfl rfl rfl rfl rfl (by decide) rfl

/-- **C6** (delete before escalation).  In every pass that handles a
    violating group message, the deletion of the offending message is the
    very first effect: the violation counter is read and incremented, and
    the escalation decision evaluated, only afterwards. -/
theorem c6_delete_before_escalation (s : GroupSettings) (m : TgMessage)
    (count uid : Nat)
    (hcmd : startsSlash (msgText m) = false)
    (hfrom : m.fromId = some uid)
    (hviol : (s.antiforward && isForwarded m) = true ∨
             (s.antilink && containsDisallowedLink (some (msgText m)) s.whitelist) = true) :
    ∃ rest, handleGroupMessageTrace s m count =
        Effect.deleteMsg (chatStr m) m.message_id :: rest ∧
      Effect.kvGet (violationsKey (chatStr m) uid) ∈ rest ∧
      Effect.kvPut (violationsKey (chatStr m) uid) (toString (count + 1)) ∈ rest := by
  refine ⟨handleRuleViolationTrace s (chatStr m) uid count,
    handleGroupMessageTrace_violation s m count uid hcmd hfrom hviol, ?_, ?_⟩
  · simp [handleRuleViolationTrace]
  · simp [handleRuleViolationTrace]

/-- Witness for C6: a concrete link-violating message under the default
    settings (antilink ON, empty whitelist). -/
theorem c6_witness :
    ∃ rest, handleGroupMessageTrace defaultGroupSettings linkViolationMsg 0 =
        Effect.deleteMsg (chatStr linkViolationMsg) linkViolationMsg.message_id :: rest ∧
      Effect.kvGet (violationsKey (chatStr linkViolationMsg) 7) ∈ rest ∧
      Effect.kvPut (violationsKey (chatStr linkViolationMsg) 7) (toString (0 + 1)) ∈ rest :=
  c6_delete_before_escalation defaultGroupSettings linkViolationMsg 0 7
    (by decide) rfl (Or.inr (by decide))

/-- Helper: with no network-level failure, the inner message loop of
    `handleCron` issues every deletion in order and returns normally. -/
theorem runMsgs_ok (gw : String → Nat → GwOutcome) (c : String)
    (h : ∀ m, gw c m ≠ GwOutcome.network) (ids : List Nat) :
    runMsgs gw c ids = Except.ok (ids.map (fun mid => (c, mid))) := by
  induction ids with
  | nil => rfl
  | cons mid rest ih =>
    simp only [runMsgs, tgCallDelete]
    cases hg : gw c mid with
    | network => exact absurd hg (h mid)
    | response ok => simp [ih]

/-- **C7, counterexample.**  The claim states that a failure of the
    deletion-gateway call for one due task neither prevents the remaining
    due tasks of the same sweep from being processed nor is raised to the
    sweep's caller.  `tgCall` (and the part_001 copy) has no try/catch
    around `await fetch`, so a rejected fetch (network failure) for the
    first due task propagates out of `handleCron`: the sweep aborts and the
    exception reaches the caller. -/
theorem c7_counterexample : handleCron gwDown 100 cronSt0 = Except.error () := rfl

/-- **C7, amended.**  Failures the gateway reports in its HTTP response
    (non-2xx status or an `ok: false` body) are logged and swallowed inside
    `tgCall`: under any oracle that never rejects at the network level, the
    sweep processes every due task, issues all their deletion calls, and
    returns normally — no response-level failure aborts the batch or
    reaches the caller.  Only a rejected fetch (network-level exception)
    propagates. -/
theorem c7_amended (gw : String → Nat → GwOutcome) (now : Nat) (st : CronStore)
    (h : ∀ c m, gw c m ≠ GwOutcome.network) :
    handleCron gw now st =
      Except.ok (cronCalls now st, st.filter (cronKeep now)) := by
  induction st with
  | nil => rfl
  | cons e rest ih =>
    cases e with
    | mk k v =>
      by_cases hskip : cronSkip now k = true
      · simp only [handleCron, hskip, if_true, ih, cronCalls, cronCallsOf, hskip,
          List.filter_cons, cronKeep]
        all_goals simp [hskip]
      · have hsk : cronSkip now k = false := by
          cases hx : cronSkip now k
          · rfl
          · exact absurd hx hskip
        cases v with
        | none =>
          simp only [handleCron, hsk, Bool.false_eq_true, if_false, ih, cronCalls,
            cronCallsOf, List.filter_cons, cronKeep]
          all_goals simp [hsk]
        | some rv =>
          cases rv with
          | corrupt =>
            simp only [handleCron, hsk, Bool.false_eq_true, if_false, ih, cronCalls,
              cronCallsOf, List.filter_cons, cronKeep]
            all_goals simp [hsk]
          | entry en =>
            simp only [handleCron, hsk, Bool.false_eq_true, if_false,
              runMsgs_ok gw en.chat_id (h en.chat_id) en.message_ids, ih, cronCalls,
              cronCallsOf, List.filter_cons, cronKeep]

/-- Witness for C7 (amended): with a gateway that answers every call with
    an API error response, both due tasks of the concrete store are still
    processed, all calls are issued, and no exception escapes. -/
theorem c7_witness :
    handleCron gwApiError 100 cronSt0 = Except.ok ([("1", 11), ("1", 22)], []) :=
  (c7_amended gwApiError 100 cronSt0 (fun _ _ hn => GwOutcome.noConfusion hn)).trans rfl

/-- **C9** (forgive operation; spec-modelled).  Decrementing the ledger for
    a key at count 0 leaves it at 0, and a decrement never makes any
    stored count negative. -/
theorem c9_decrement (led : String × Nat → Int) (key : String × Nat)
    (h0 : led key = 0) (hnn : ∀ k, 0 ≤ led k) :
    decrement led key key = 0 ∧ ∀ k, 0 ≤ decrement led key k := by
  constructor
  · simp [decrement, h0]
  · intro k
    by_cases hk : k = key
    · simp only [decrement, hk, if_pos rfl]
      exact le_max_left 0 _
    · simp only [decrement, if_neg hk]
      exact hnn k

/-- Witness for C9: the all-zero ledger. -/
theorem c9_witness :
    decrement (fun _ => 0) ("1", 1) ("1", 1) = 0 ∧
    ∀ k, 0 ≤ decrement (fun _ => (0 : Int)) ("1", 1) k :=
  c9_decrement (fun _ => 0) ("1", 1) rfl (fun _ => le_refl 0)

/-- **C10, counterexample.**  The claim states that every POST whose body
    parses as JSON receives 200 "OK".  The body `"null"` is valid JSON, but
    it parses to a falsy value and the entry point returns 400
    "No update". -/
theorem c10_counterexample :
    workerFetch "POST" BodyParse.nullish = ⟨400, "No update"⟩ ∧
    ¬ workerFetch "POST" BodyParse.nullish = ⟨200, "OK"⟩ := by
  constructor
  · rfl
  · decide

/-- **C10, amended.**  For the src/src/index.ts entry point: every non-POST
    request gets 200 "OK"; a POST with an unparsable body gets 400
    "Bad Request"; a POST whose body parses to a falsy value gets 400
    "No update"; and a POST whose body parses to an update object gets 200
    "OK" regardless of the update's content — the deferred moderation work
    never changes the response.  The part_000 variant instead propagates an
    exception on an unparsable body (no 400). -/
theorem c10_amended :
    (∀ m b, m ≠ "POST" → workerFetch m b = ⟨200, "OK"⟩) ∧
    workerFetch "POST" BodyParse.invalid = ⟨400, "Bad Request"⟩ ∧
    workerFetch "POST" BodyParse.nullish = ⟨400, "No update"⟩ ∧
    (∀ u, workerFetch "POST" (BodyParse.update u) = ⟨200, "OK"⟩) ∧
    (∀ u, part000Fetch "POST" (BodyParse.update u) = Except.ok ⟨200, "OK"⟩) ∧
    part000Fetch "POST" BodyParse.invalid = Except.error () := by
  refine ⟨?_, rfl, rfl, ?_, ?_, rfl⟩
  · intro m b hm
    simp [workerFetch, hm]
  · intro u
    rfl
  · intro u
    rfl

/-- Witness for C10 (amended): a GET request with an unparsable body still
    gets 200 "OK". -/
theorem c10_witness : workerFetch "GET" BodyParse.invalid = ⟨200, "OK"⟩ :=
  c10_amended.1 "GET" BodyParse.invalid (by decide)

end GroupManager
